import Mathlib

/-!
Shallow embedding of the workspace-manager broadcast subsystem:
the stats aggregator, the mutating routes, the WebSocket broadcast,
the connection-greeting event loop, and the session gate.
-/

namespace WM

/-- A project document (models/Project.js): `title` required, `description`
optional, `progress` a number defaulting to 0 (modelled as `Option Nat`
because the aggregator reads it as `p.progress || 0`). -/
structure Project where
  id : Nat
  title : String
  description : Option String
  progress : Option Nat
deriving DecidableEq, Repr

/-- A task document (models/Task.js): `title` required, `completed`
boolean defaulting to false, `projectId` an optional reference. -/
structure Task where
  id : Nat
  title : String
  completed : Bool
  projectId : Option Nat
deriving DecidableEq, Repr

/-- The per-project summary produced by `computeStats`. -/
structure ProjectSummary where
  id : Nat
  name : String
  description : Option String
  progress : Nat
deriving DecidableEq, Repr

/-- The derived stats snapshot. -/
structure StatsSnapshot where
  totalProjects : Nat
  totalTasks : Nat
  overallCompletion : Int
  projects : List ProjectSummary
deriving DecidableEq, Repr

/-- The repository state: the two collections, plus a counter supplying
fresh document identifiers on creation. -/
structure RepoState where
  nextId : Nat
  projects : List Project
  tasks : List Task
deriving DecidableEq, Repr

/-- JavaScript `Math.round x` = `⌊x + 0.5⌋` (ties round toward positive
infinity), on exact rationals. -/
def mathRound (x : ℚ) : Int :=
  Int.floor (x + 1 / 2)

/-- The stats aggregator (app.js lines 53–75): counts projects and tasks,
special-cases an empty task list, otherwise rounds
`(completed / tasks.length) * 100`, and maps each project to a summary
with `progress := p.progress || 0`. -/
def computeStats (st : RepoState) : StatsSnapshot :=
  let completed := (st.tasks.filter (fun t => t.completed)).length
  { totalProjects := st.projects.length
    totalTasks := st.tasks.length
    overallCompletion :=
      if st.tasks.length = 0 then 0
      else mathRound (((completed : ℚ) / (st.tasks.length : ℚ)) * 100)
    projects := st.projects.map (fun p =>
      { id := p.id
        name := p.title
        description := p.description
        progress := p.progress.getD 0 }) }

/-- The spec's own formula for overall completion: 0 when there are no
tasks, otherwise `round(100 × completedTasks / totalTasks)`. -/
def specOverallCompletion (completed total : Nat) : Int :=
  if total = 0 then 0
  else Int.floor (100 * (completed : ℚ) / (total : ℚ) + 1 / 2)

/-- JavaScript falsiness of an optional string: `undefined` and the empty
string are falsy. -/
def jsFalsy (s : Option String) : Bool :=
  match s with
  | none => true
  | some v => v = ""

/-- JavaScript `a || b` on optional strings. -/
def jsOr (a b : Option String) : Option String :=
  if jsFalsy a then b else a

/-- Outcome of one HTTP mutating route: the repository state afterwards,
how many times `broadcastStats` ran, and the HTTP status sent back
(302 redirect on success; 400 validation, 404 not-found, 500 error). -/
structure RouteResult where
  state : RepoState
  broadcasts : Nat
  status : Nat
deriving DecidableEq, Repr

/-- Request body of the project-creation form route. -/
structure ProjectReqBody where
  name : Option String
  title : Option String
  description : Option String
deriving DecidableEq, Repr

/-- POST /projects (app.js lines 754–777): `projectTitle = title || name`;
if falsy, 400 with no write and no broadcast; otherwise save a project
with `progress: 0`, broadcast once, and redirect. -/
def postProjects (st : RepoState) (body : ProjectReqBody) : RouteResult :=
  let projectTitle := jsOr body.title body.name
  if jsFalsy projectTitle then
    { state := st, broadcasts := 0, status := 400 }
  else
    { state :=
        { nextId := st.nextId + 1
          projects := st.projects ++
            [{ id := st.nextId
               title := projectTitle.getD ""
               description := body.description
               progress := some 0 }]
          tasks := st.tasks }
      broadcasts := 1
      status := 302 }

/-- First project with the given id, as `Project.findById`. -/
def findProject (st : RepoState) (pid : Nat) : Option Project :=
  st.projects.find? (fun p => p.id = pid)

/-- First task with the given id, as `Task.findById`. -/
def findTask (st : RepoState) (tid : Nat) : Option Task :=
  st.tasks.find? (fun t => t.id = tid)

/-- POST /projects/:id/tasks (app.js lines 806–833): 400 when the title is
falsy, 404 when the project does not exist, otherwise save a task
(completed defaults to false), broadcast once, redirect. -/
def postProjectTasks (st : RepoState) (pid : Nat) (title : Option String) :
    RouteResult :=
  if jsFalsy title then
    { state := st, broadcasts := 0, status := 400 }
  else
    match findProject st pid with
    | none => { state := st, broadcasts := 0, status := 404 }
    | some project =>
      { state :=
          { nextId := st.nextId + 1
            projects := st.projects
            tasks := st.tasks ++
              [{ id := st.nextId
                 title := title.getD ""
                 completed := false
                 projectId := some project.id }] }
        broadcasts := 1
        status := 302 }

/-- Persisting a task document: every stored task with the same id is
replaced (MongoDB ids are unique, so at most one is). -/
def saveTask (st : RepoState) (t : Task) : RepoState :=
  { st with tasks := st.tasks.map (fun u => if u.id = t.id then t else u) }

/-- POST /tasks/:id/toggle (app.js lines 836–853): 404 when the task does
not exist; otherwise `task.completed = !task.completed`, save, broadcast
once, redirect. -/
def postTasksToggle (st : RepoState) (tid : Nat) : RouteResult :=
  match findTask st tid with
  | none => { state := st, broadcasts := 0, status := 404 }
  | some task =>
    { state := saveTask st { task with completed := !task.completed }
      broadcasts := 1
      status := 302 }

/-- Request body of the JSON API project-creation route
(`new Project(req.body)` picks the schema paths). -/
structure ApiProjectBody where
  title : Option String
  description : Option String
  progress : Option Nat
deriving DecidableEq, Repr

/-- POST /api/projects (routes/api/projects.js lines 12–16): builds a
project straight from the body and saves it. A missing/empty title fails
the schema's `required` validation (500 through the error handler); on
success it answers 200 with the project as JSON. The route never calls
`broadcastStats`. -/
def apiPostProjects (st : RepoState) (body : ApiProjectBody) : RouteResult :=
  if jsFalsy body.title then
    { state := st, broadcasts := 0, status := 500 }
  else
    { state :=
        { nextId := st.nextId + 1
          projects := st.projects ++
            [{ id := st.nextId
               title := body.title.getD ""
               description := body.description
               progress := some (body.progress.getD 0) }]
          tasks := st.tasks }
      broadcasts := 0
      status := 200 }

/-- A live WebSocket connection as seen by the broadcaster: its identity,
its `readyState` (1 = OPEN), and whether an attempted send to it fails at
the transport level. -/
structure Conn where
  id : Nat
  readyState : Nat
  sendFails : Bool
deriving DecidableEq, Repr

/-- A server-to-client wire message (`JSON.stringify` of an object with a
`type` field). -/
inductive WireMsg where
  | info (message : String)
  | stats (data : StatsSnapshot)
deriving DecidableEq, Repr

/-- Result of one `broadcastStats` run: the client registry afterwards,
the sends attempted (connection paired with the message handed to
`send`), and whether an error escaped to the caller. -/
structure BroadcastResult where
  registry : List Conn
  sends : List (Conn × WireMsg)
  raised : Bool
deriving DecidableEq, Repr

/-- The broadcast coordinator (app.js lines 77–84): encode the fresh
snapshot once, then `wss.clients.forEach(c => if (c.readyState === 1)
c.send(msg))`. The loop neither modifies `wss.clients` nor lets a send
failure surface: a transport error is emitted asynchronously and ignored
here. -/
def broadcastStats (st : RepoState) (clients : List Conn) : BroadcastResult :=
  let msg := WireMsg.stats (computeStats st)
  { registry := clients
    sends := (clients.filter (fun c => c.readyState = 1)).map (fun c => (c, msg))
    raised := false }

/-- Who produced a message delivered to a client: the connection
handler's greeting sends, or a mutation-triggered broadcast. -/
inductive MsgOrigin where
  | greetInfo
  | greetStats
  | mutationStats
deriving DecidableEq, Repr

/-- One event on the single-threaded event loop: a new WebSocket
connection (the handler runs synchronously up to its `await`), a
successful mutating request completing (which broadcasts), or the
connection handler resuming after `await computeStats()`. -/
inductive LoopEv where
  | connect (cid : Nat)
  | mutate
  | resume (cid : Nat)
deriving DecidableEq, Repr

/-- Event-loop state: the repository, the connected client ids
(`wss.clients`), the handlers suspended at the `await`, and the ordered
delivery log (client id, origin, message). -/
structure LoopState where
  repo : RepoState
  clients : List Nat
  pending : List Nat
  log : List (Nat × MsgOrigin × WireMsg)
deriving DecidableEq, Repr

/-- One event-loop step (app.js lines 86–89 for the handler). `connect`
adds the client to `wss.clients` and synchronously sends the `"info"`
greeting; the handler then suspends on `await computeStats()`. `mutate`
runs a successful project creation and its broadcast, delivering the new
snapshot to every connected client. `resume` finishes a suspended
handler, sending its one `"stats"` greeting with the snapshot computed at
that point. -/
def loopStep (s : LoopState) : LoopEv → LoopState
  | LoopEv.connect cid =>
    { s with clients := s.clients ++ [cid]
             pending := s.pending ++ [cid]
             log := s.log ++ [(cid, MsgOrigin.greetInfo, WireMsg.info "Connected")] }
  | LoopEv.mutate =>
    let repo2 := (postProjects s.repo { name := none, title := some "p", description := none }).state
    { s with repo := repo2
             log := s.log ++ s.clients.map (fun c =>
               (c, MsgOrigin.mutationStats, WireMsg.stats (computeStats repo2))) }
  | LoopEv.resume cid =>
    if cid ∈ s.pending then
      { s with pending := s.pending.erase cid
               log := s.log ++ [(cid, MsgOrigin.greetStats, WireMsg.stats (computeStats s.repo))] }
    else s

/-- Run a schedule of event-loop events. -/
def runLoop (s : LoopState) : List LoopEv → LoopState
  | [] => s
  | e :: es => runLoop (loopStep s e) es

/-- The initial event-loop state: empty repository, no clients. -/
def loopInit : LoopState :=
  { repo := { nextId := 0, projects := [], tasks := [] }
    clients := []
    pending := []
    log := [] }

/-- The messages a delivery log holds for one client, in order. -/
def inboxLog (log : List (Nat × MsgOrigin × WireMsg)) (cid : Nat) :
    List (MsgOrigin × WireMsg) :=
  (log.filter (fun e => e.1 = cid)).map (fun e => e.2)

/-- The messages delivered to one client, in delivery order, tagged with
their origin. -/
def inbox (s : LoopState) (cid : Nat) : List (MsgOrigin × WireMsg) :=
  inboxLog s.log cid

/-- The signed payload of a session token. The register route at app.js
line 143 signs only `{ id: user._id }`, so name and email are optional
here. -/
structure SignedClaims where
  id : Nat
  name : Option String
  email : Option String
deriving DecidableEq, Repr

/-- A user identity as the spec means it: subject id, display name,
email. -/
structure Identity where
  id : Nat
  name : String
  email : String
deriving DecidableEq, Repr

/-- A signed token. The signature is symbolic: an unforgeable record of
the secret and of everything signed, so any change to the payload or the
times no longer matches it. -/
structure Token where
  claims : SignedClaims
  iat : Nat
  exp : Nat
  sig : Nat × SignedClaims × Nat × Nat
deriving DecidableEq, Repr

/-- Modelled from the spec: `jwt.sign` of the external jsonwebtoken
library (not under src/) — signs the payload with the server secret and
embeds issue time and expiry `now + window` in the token. -/
def jwtSign (secret : Nat) (claims : SignedClaims) (now window : Nat) : Token :=
  { claims := claims
    iat := now
    exp := now + window
    sig := (secret, claims, now, now + window) }

/-- Modelled from the spec: `jwt.verify` of the external jsonwebtoken
library — yields the payload when the signature matches the secret and
the current time is before the embedded expiry, otherwise fails. -/
def jwtVerify (secret : Nat) (tok : Token) (now : Nat) : Option SignedClaims :=
  if tok.sig = (secret, tok.claims, tok.iat, tok.exp) ∧ now < tok.exp then
    some tok.claims
  else
    none

/-- The 7-day validity window (`expiresIn: "7d"`), in seconds. -/
def sevenDays : Nat := 7 * 24 * 60 * 60

/-- Token issuance by the register route (app.js lines 143–144):
`jwt.sign({ id: user._id }, JWT_SECRET, { expiresIn: "7d" })` — only the
subject id is signed. -/
def registerToken (secret : Nat) (user : Identity) (now : Nat) : Token :=
  jwtSign secret { id := user.id, name := none, email := none } now sevenDays

/-- The claims the spec's full identity would sign: id, name and email. -/
def identityClaims (user : Identity) : SignedClaims :=
  { id := user.id, name := some user.name, email := some user.email }

/-- What the `token` cookie carries: a well-formed signed token, or a
malformed string that `jwt.verify` rejects by throwing. -/
inductive Cred where
  | malformed
  | signed (t : Token)
deriving DecidableEq, Repr

/-- Outcome of the authentication middleware on one request: the identity
attached to `req.user`, and whether `next()` was invoked so the request
proceeds. -/
structure AuthOutcome where
  user : Option SignedClaims
  proceeded : Bool
deriving DecidableEq, Repr

/-- The session gate (middleware/auth.js lines 876–895): no cookie →
`req.user = null` and `next()`; a cookie is verified, any verification
failure (malformed, bad signature, expired) is caught and yields
`req.user = null`; `next()` runs in every case. -/
def authMiddleware (secret : Nat) (cookie : Option Cred) (now : Nat) : AuthOutcome :=
  match cookie with
  | none => { user := none, proceeded := true }
  | some Cred.malformed => { user := none, proceeded := true }
  | some (Cred.signed t) =>
    match jwtVerify secret t now with
    | some claims => { user := some claims, proceeded := true }
    | none => { user := none, proceeded := true }

/-- Result of the `requireAuth` guard. -/
inductive GateResult where
  | proceed
  | redirectLogin
deriving DecidableEq, Repr

/-- The `requireAuth` middleware (middleware/auth.js lines 897–902):
redirect to /login when there is no identity, otherwise continue. -/
def requireAuth (user : Option SignedClaims) : GateResult :=
  match user with
  | none => GateResult.redirectLogin
  | some _ => GateResult.proceed

/-- GET /health (app.js lines 109–111) as reached through the global
middleware chain: `authMiddleware` runs first (it always proceeds), no
`requireAuth` is mounted on this route, and the handler answers
`200 "OK"`. `none` would mean the request never reached the handler. -/
def handleHealth (secret : Nat) (cookie : Option Cred) (now : Nat) :
    Option (Nat × String) :=
  let a := authMiddleware secret cookie now
  if a.proceeded then some (200, "OK") else none

/-- The empty repository, used as a concrete input below. -/
def emptyRepo : RepoState :=
  { nextId := 0, projects := [], tasks := [] }

/-- The authentication middleware calls `next()` on every input. Shared
helper used by several proofs. -/
lemma authMiddleware_proceeds (secret : Nat) (cookie : Option Cred) (now : Nat) :
    (authMiddleware secret cookie now).proceeded = true := by
  cases cookie with
  | none => rfl
  | some c =>
    cases c with
    | malformed => rfl
    | signed t =>
      simp only [authMiddleware]
      cases jwtVerify secret t now <;> rfl

/-- Claim C1: for every repository state, `computeStats` returns a
snapshot whose `totalProjects` is the number of projects, `totalTasks`
the number of tasks, `overallCompletion` is 0 with no tasks and otherwise
`round(100 × completedTasks / totalTasks)`, and whose `projects` list has
one summary `{id, name, description, progress}` per project, in order. -/
theorem computeStats_matches_spec (st : RepoState) :
    (computeStats st).totalProjects = st.projects.length ∧
    (computeStats st).totalTasks = st.tasks.length ∧
    (computeStats st).overallCompletion =
      specOverallCompletion ((st.tasks.filter (fun t => t.completed)).length)
        st.tasks.length ∧
    (computeStats st).projects.length = st.projects.length ∧
    (∀ i : Nat, ((computeStats st).projects)[i]? =
      (st.projects[i]?).map (fun p =>
        { id := p.id
          name := p.title
          description := p.description
          progress := p.progress.getD 0 })) := by
  refine ⟨rfl, rfl, ?_, by simp [computeStats], ?_⟩
  · simp only [computeStats, specOverallCompletion, mathRound]
    by_cases h : st.tasks.length = 0
    · simp [h]
    · simp only [h, if_false]
      congr 1
      ring
  · intro i
    simp [computeStats, List.getElem?_map]

/-- Claim C2 counterexample: the JSON API project-creation route succeeds
(status 200, a project is written) yet performs zero broadcasts, so not
every successful mutation entry point invokes the broadcast exactly
once. -/
theorem apiPostProjects_silent_cex :
    (apiPostProjects emptyRepo
      { title := some "A", description := none, progress := none }).status = 200 ∧
    (apiPostProjects emptyRepo
      { title := some "A", description := none, progress := none }).state ≠ emptyRepo ∧
    (apiPostProjects emptyRepo
      { title := some "A", description := none, progress := none }).broadcasts = 0 := by
  decide

/-- Claim C2 (amended): each of the three HTML-form mutation routes —
project creation, task creation under a project, task-completion
toggle — invokes `broadcastStats` exactly once when it succeeds and zero
times otherwise, but the JSON API project-creation route never invokes
it, even on success. -/
theorem mutation_broadcast_counts (st : RepoState) (b : ProjectReqBody)
    (pid : Nat) (tt : Option String) (tid : Nat) (ab : ApiProjectBody) :
    ((postProjects st b).broadcasts =
      if (postProjects st b).status = 302 then 1 else 0) ∧
    ((postProjectTasks st pid tt).broadcasts =
      if (postProjectTasks st pid tt).status = 302 then 1 else 0) ∧
    ((postTasksToggle st tid).broadcasts =
      if (postTasksToggle st tid).status = 302 then 1 else 0) ∧
    (apiPostProjects st ab).broadcasts = 0 := by
  refine ⟨?_, ?_, ?_, ?_⟩
  · simp only [postProjects]
    split <;> simp
  · rcases h : findProject st pid with _ | project <;>
      simp only [postProjectTasks, h] <;> split <;> simp
  · rcases h : findTask st tid with _ | task <;> simp [postTasksToggle, h]
  · simp only [apiPostProjects]
    split <;> simp

/-- Claim C3 counterexample: a registered connection that is not ready
(readyState ≠ 1) is skipped by the broadcast but is NOT removed — it is
still in the registry after `broadcastStats` runs. -/
theorem broadcast_keeps_nonready_cex :
    (broadcastStats emptyRepo
      [{ id := 0, readyState := 3, sendFails := false }]).sends = [] ∧
    ({ id := 0, readyState := 3, sendFails := false } : Conn) ∈
      (broadcastStats emptyRepo
        [{ id := 0, readyState := 3, sendFails := false }]).registry := by
  decide

/-- Claim C3 (amended): delivery is independent and best-effort — a
non-ready connection is skipped and a send failure is ignored, neither
aborts delivery to the remaining connections and no error reaches the
mutation caller — but the broadcast loop leaves the registry unchanged:
no connection is removed by it. -/
theorem broadcastStats_best_effort (st : RepoState) (clients : List Conn) :
    (broadcastStats st clients).raised = false ∧
    (broadcastStats st clients).registry = clients ∧
    (∀ c ∈ clients, c.readyState = 1 →
      (c, WireMsg.stats (computeStats st)) ∈ (broadcastStats st clients).sends) ∧
    (∀ c m, (c, m) ∈ (broadcastStats st clients).sends →
      c ∈ clients ∧ c.readyState = 1) := by
  refine ⟨rfl, rfl, ?_, ?_⟩
  · intro c hc hr
    simp only [broadcastStats, List.mem_map, List.mem_filter]
    exact ⟨c, ⟨hc, by simp [hr]⟩, rfl⟩
  · intro c m hm
    simp only [broadcastStats, List.mem_map, List.mem_filter] at hm
    obtain ⟨c2, ⟨hc2, hr2⟩, heq⟩ := hm
    cases heq
    exact ⟨hc2, by simpa using hr2⟩

/-- Claim C3 witness: with one ready connection whose transport send
fails and one non-ready connection, the broadcast still hands the message
to the ready connection, raises nothing, and leaves both registered. -/
theorem broadcastStats_best_effort_witness :
    (broadcastStats emptyRepo
      [{ id := 1, readyState := 1, sendFails := true },
       { id := 2, readyState := 3, sendFails := false }]).raised = false ∧
    (({ id := 1, readyState := 1, sendFails := true } : Conn),
      WireMsg.stats (computeStats emptyRepo)) ∈
      (broadcastStats emptyRepo
        [{ id := 1, readyState := 1, sendFails := true },
         { id := 2, readyState := 3, sendFails := false }]).sends := by
  refine ⟨(broadcastStats_best_effort emptyRepo _).1, ?_⟩
  exact (broadcastStats_best_effort emptyRepo
    [{ id := 1, readyState := 1, sendFails := true },
     { id := 2, readyState := 3, sendFails := false }]).2.2.1 _ (by decide) rfl

/-- Claim C4: every failed mutating route — validation failure (missing
required field) or not-found failure (missing project or task) — leaves
the repository unchanged and performs zero broadcasts; the failure status
is returned synchronously to the caller. -/
theorem failed_mutations_change_nothing (st : RepoState) (b : ProjectReqBody)
    (pid : Nat) (tt : Option String) (tid : Nat) :
    ((postProjects st b).status ≠ 302 →
      (postProjects st b).state = st ∧ (postProjects st b).broadcasts = 0 ∧
      (postProjects st b).status = 400) ∧
    ((postProjectTasks st pid tt).status ≠ 302 →
      (postProjectTasks st pid tt).state = st ∧
      (postProjectTasks st pid tt).broadcasts = 0 ∧
      ((postProjectTasks st pid tt).status = 400 ∨
        (postProjectTasks st pid tt).status = 404)) ∧
    ((postTasksToggle st tid).status ≠ 302 →
      (postTasksToggle st tid).state = st ∧
      (postTasksToggle st tid).broadcasts = 0 ∧
      (postTasksToggle st tid).status = 404) := by
  refine ⟨?_, ?_, ?_⟩
  · simp only [postProjects]
    split <;> simp
  · rcases h : findProject st pid with _ | project <;>
      simp only [postProjectTasks, h] <;> split <;> simp
  · rcases h : findTask st tid with _ | task <;> simp [postTasksToggle, h]

/-- Claim C4 witness: concrete failing calls — project creation with no
title, task creation with a missing title, task creation under a missing
project, and a toggle of a missing task — all leave the empty repository
untouched with zero broadcasts. -/
theorem failed_mutations_witness :
    ((postProjects emptyRepo
        { name := none, title := some "", description := none }).state = emptyRepo ∧
      (postProjects emptyRepo
        { name := none, title := some "", description := none }).broadcasts = 0 ∧
      (postProjects emptyRepo
        { name := none, title := some "", description := none }).status = 400) ∧
    ((postProjectTasks emptyRepo 5 (some "t")).state = emptyRepo ∧
      (postProjectTasks emptyRepo 5 (some "t")).broadcasts = 0 ∧
      ((postProjectTasks emptyRepo 5 (some "t")).status = 400 ∨
        (postProjectTasks emptyRepo 5 (some "t")).status = 404)) ∧
    ((postTasksToggle emptyRepo 9).state = emptyRepo ∧
      (postTasksToggle emptyRepo 9).broadcasts = 0 ∧
      (postTasksToggle emptyRepo 9).status = 404) :=
  ⟨(failed_mutations_change_nothing emptyRepo
      { name := none, title := some "", description := none } 5 (some "t") 9).1
        (by decide),
   (failed_mutations_change_nothing emptyRepo
      { name := none, title := some "", description := none } 5 (some "t") 9).2.1
        (by decide),
   (failed_mutations_change_nothing emptyRepo
      { name := none, title := some "", description := none } 5 (some "t") 9).2.2
        (by decide)⟩

/-- Claim C7: the authentication middleware never fails the request — a
missing, malformed, or unverifiable (tampered/expired) token each yield
`req.user = null` while the request proceeds to the next handler; a
verified token attaches its claims; only the separate `requireAuth`
guard redirects requests that carry no identity. -/
theorem authMiddleware_never_rejects (secret : Nat) (cookie : Option Cred)
    (now : Nat) :
    (authMiddleware secret cookie now).proceeded = true ∧
    (cookie = none → (authMiddleware secret cookie now).user = none) ∧
    (cookie = some Cred.malformed →
      (authMiddleware secret cookie now).user = none) ∧
    (∀ t, cookie = some (Cred.signed t) →
      (authMiddleware secret cookie now).user = jwtVerify secret t now) ∧
    requireAuth none = GateResult.redirectLogin ∧
    (∀ c, requireAuth (some c) = GateResult.proceed) := by
  refine ⟨authMiddleware_proceeds secret cookie now, ?_, ?_, ?_, rfl, fun c => rfl⟩
  · rintro rfl
    rfl
  · rintro rfl
    rfl
  · rintro t rfl
    simp only [authMiddleware]
    cases jwtVerify secret t now <;> rfl

/-- Claim C7 witness: an expired token (presented exactly at the end of
its window) proceeds with no identity, as does a missing cookie; a
request with no identity is turned away only by `requireAuth`. -/
theorem authMiddleware_never_rejects_witness :
    (authMiddleware 1 (some (Cred.signed
      (jwtSign 1 { id := 5, name := none, email := none } 0 sevenDays)))
      sevenDays).proceeded = true ∧
    (authMiddleware 1 (some (Cred.signed
      (jwtSign 1 { id := 5, name := none, email := none } 0 sevenDays)))
      sevenDays).user = none ∧
    (authMiddleware 1 none 0).user = none ∧
    requireAuth none = GateResult.redirectLogin :=
  ⟨(authMiddleware_never_rejects 1 (some (Cred.signed
      (jwtSign 1 { id := 5, name := none, email := none } 0 sevenDays)))
      sevenDays).1,
   by
    rw [(authMiddleware_never_rejects 1 (some (Cred.signed
      (jwtSign 1 { id := 5, name := none, email := none } 0 sevenDays)))
      sevenDays).2.2.2.1 _ rfl]
    decide,
   (authMiddleware_never_rejects 1 none 0).2.1 rfl,
   (authMiddleware_never_rejects 1 none 0).2.2.2.2.1⟩

/-- Claim C8: the health probe answers the fixed success status
`200 "OK"` for every request, whether the session cookie is absent,
malformed, or a valid or expired signed token — the global
authentication middleware always proceeds and no `requireAuth` guard is
mounted on the route. -/
theorem health_always_200 (secret : Nat) (cookie : Option Cred) (now : Nat) :
    handleHealth secret cookie now = some (200, "OK") := by
  simp [handleHealth, authMiddleware_proceeds]

/-- Claim C10: within a single broadcast the payload is a function of the
repository state alone, computed once before fan-out: every message
handed to a connection equals the encoded fresh snapshot, so any two
connections receive identical messages regardless of their identity or
state. -/
theorem broadcast_uniform_message (st : RepoState) (clients : List Conn) :
    (∀ p ∈ (broadcastStats st clients).sends,
      p.2 = WireMsg.stats (computeStats st)) ∧
    (∀ p ∈ (broadcastStats st clients).sends,
      ∀ q ∈ (broadcastStats st clients).sends, p.2 = q.2) := by
  have h : ∀ p ∈ (broadcastStats st clients).sends,
      p.2 = WireMsg.stats (computeStats st) := by
    intro p hp
    simp only [broadcastStats, List.mem_map] at hp
    obtain ⟨c, -, rfl⟩ := hp
    rfl
  exact ⟨h, fun p hp q hq => (h p hp).trans (h q hq).symm⟩

/-- Claim C10 witness: two ready connections with different identities
receive the same message from one broadcast. -/
theorem broadcast_uniform_message_witness :
    (({ id := 1, readyState := 1, sendFails := false } : Conn),
      WireMsg.stats (computeStats emptyRepo)).2 =
    (({ id := 2, readyState := 1, sendFails := false } : Conn),
      WireMsg.stats (computeStats emptyRepo)).2 :=
  (broadcast_uniform_message emptyRepo
    [{ id := 1, readyState := 1, sendFails := false },
     { id := 2, readyState := 1, sendFails := false }]).2
    _ (by decide) _ (by decide)

/-- Mapping a function that fixes every element of a list leaves the list
unchanged. -/
lemma map_eq_self_of_mem {α : Type} (l : List α) (f : α → α)
    (h : ∀ a ∈ l, f a = a) : l.map f = l := by
  induction l with
  | nil => rfl
  | cons a l ih =>
    simp only [List.map_cons, h a (by simp), List.cons.injEq, true_and]
    exact ih (fun b hb => h b (by simp [hb]))

/-- If `find?` locates `task` by id, then after replacing every task
bearing `task.id` by `t2` (with `t2.id = task.id`), `find?` by the same
id locates `t2`. -/
lemma find?_map_replace (l : List Task) (tid : Nat) (task t2 : Task)
    (hfind : l.find? (fun u => u.id = tid) = some task)
    (hid : t2.id = task.id) :
    (l.map (fun u => if u.id = task.id then t2 else u)).find?
      (fun u => u.id = tid) = some t2 := by
  induction l with
  | nil => simp at hfind
  | cons a l ih =>
    by_cases ha : a.id = tid
    · rw [List.find?_cons_of_pos l (by simp [ha])] at hfind
      obtain rfl : a = task := by simpa using hfind
      simp only [List.map_cons, if_pos rfl]
      exact List.find?_cons_of_pos _ (by simp [hid, ha])
    · rw [List.find?_cons_of_neg l (by simp [ha])] at hfind
      have htid : task.id = tid := by simpa using List.find?_some hfind
      have hne : ¬a.id = task.id := by
        rw [htid]
        exact ha
      simp only [List.map_cons, if_neg hne]
      rw [List.find?_cons_of_neg _ (by simp [ha])]
      exact ih hfind

/-- Claim C9: when the task exists (and task ids are unique, as MongoDB
guarantees), the toggle route negates exactly the `completed` field of
that task — id, title and project reference are preserved — leaves every
other task and the whole project collection untouched, and toggling the
same task twice restores the original repository state. -/
theorem toggle_involution (st : RepoState) (tid : Nat) (task : Task)
    (hnodup : (st.tasks.map Task.id).Nodup)
    (hfind : findTask st tid = some task) :
    (postTasksToggle st tid).status = 302 ∧
    findTask (postTasksToggle st tid).state tid =
      some { task with completed := !task.completed } ∧
    (postTasksToggle st tid).state.projects = st.projects ∧
    (postTasksToggle st tid).state.nextId = st.nextId ∧
    (∀ u ∈ st.tasks, u.id ≠ tid → u ∈ (postTasksToggle st tid).state.tasks) ∧
    (postTasksToggle (postTasksToggle st tid).state tid).state = st := by
  have htid : task.id = tid := by simpa using List.find?_some hfind
  have hmem : task ∈ st.tasks := List.mem_of_find?_eq_some hfind
  have hstep : (postTasksToggle st tid).state =
      saveTask st { task with completed := !task.completed } := by
    simp only [postTasksToggle, hfind]
  have hfind2 : findTask (postTasksToggle st tid).state tid =
      some { task with completed := !task.completed } := by
    rw [hstep]
    exact find?_map_replace st.tasks tid task _ hfind rfl
  refine ⟨by simp only [postTasksToggle, hfind], hfind2, ?_, ?_, ?_, ?_⟩
  · rw [hstep]
    rfl
  · rw [hstep]
    rfl
  · intro u hu hune
    rw [hstep]
    simp only [saveTask, List.mem_map]
    refine ⟨u, hu, ?_⟩
    rw [if_neg]
    rw [htid]
    exact hune
  · simp only [postTasksToggle, hfind2] at *
    rw [hstep]
    have hback : ({ task with completed := !(!task.completed) } : Task) = task := by
      rw [Bool.not_not]
    rw [hback]
    simp only [saveTask, List.map_map]
    have hfix : ∀ u ∈ st.tasks,
        (fun u => if u.id = task.id then task else u)
          ((fun u => if u.id = task.id then { task with completed := !task.completed }
            else u) u) = u := by
      intro u hu
      by_cases h : u.id = task.id
      · have : u = task := List.inj_on_of_nodup_map hnodup hu hmem h
        subst this
        simp
      · simp [h]
    have : st.tasks.map ((fun u => if u.id = task.id then task else u) ∘
        (fun u => if u.id = task.id then { task with completed := !task.completed }
          else u)) = st.tasks := map_eq_self_of_mem _ _ hfix
    rw [this]

/-- Claim C9 witness: in a repository with a single incomplete task,
toggling marks it complete (all other fields intact) and toggling again
restores the original state. -/
theorem toggle_involution_witness :
    (postTasksToggle
      { nextId := 10, projects := [],
        tasks := [{ id := 7, title := "t", completed := false, projectId := none }] }
      7).status = 302 ∧
    findTask (postTasksToggle
      { nextId := 10, projects := [],
        tasks := [{ id := 7, title := "t", completed := false, projectId := none }] }
      7).state 7 =
      some { id := 7, title := "t", completed := true, projectId := none } ∧
    (postTasksToggle (postTasksToggle
      { nextId := 10, projects := [],
        tasks := [{ id := 7, title := "t", completed := false, projectId := none }] }
      7).state 7).state =
      { nextId := 10, projects := [],
        tasks := [{ id := 7, title := "t", completed := false, projectId := none }] } := by
  have h := toggle_involution
    { nextId := 10, projects := [],
      tasks := [{ id := 7, title := "t", completed := false, projectId := none }] }
    7 { id := 7, title := "t", completed := false, projectId := none }
    (by decide) (by decide)
  exact ⟨h.1, h.2.1, h.2.2.2.2.2⟩

/-- The origin tags of a delivered-message list, in order. -/
def origins (l : List (MsgOrigin × WireMsg)) : List MsgOrigin :=
  l.map Prod.fst

/-- How many of the messages are the handler's `"info"` greeting. -/
def infoCount (l : List (MsgOrigin × WireMsg)) : Nat :=
  l.countP (fun m => m.1 = MsgOrigin.greetInfo)

/-- How many of the messages are the handler's greeting `"stats"` send. -/
def greetStatsCount (l : List (MsgOrigin × WireMsg)) : Nat :=
  l.countP (fun m => m.1 = MsgOrigin.greetStats)

/-- The client ids of the `connect` events of a schedule. -/
def connectIds (es : List LoopEv) : List Nat :=
  es.filterMap (fun e =>
    match e with
    | LoopEv.connect c => some c
    | _ => none)

/-- Claim C5 counterexample: schedule a connection, then a successful
mutation while the greeting handler is suspended on `await
computeStats()`, then the handler's resumption. The new client's inbox is
the `"info"` greeting, then the mutation's broadcast, then the greeting
`"stats"` — a broadcast of a subsequent mutation is delivered between the
two greeting messages. -/
theorem broadcast_between_greetings_cex :
    origins (inbox (runLoop loopInit
      [LoopEv.connect 0, LoopEv.mutate, LoopEv.resume 0]) 0) =
      [MsgOrigin.greetInfo, MsgOrigin.mutationStats, MsgOrigin.greetStats] := by
  decide

/-- Splitting an inbox along an appended log. -/
lemma inboxLog_append (l1 l2 : List (Nat × MsgOrigin × WireMsg)) (cid : Nat) :
    inboxLog (l1 ++ l2) cid = inboxLog l1 cid ++ inboxLog l2 cid := by
  simp [inboxLog, List.filter_append]

/-- A single log entry for the client itself. -/
lemma inboxLog_single_self (cid : Nat) (o : MsgOrigin) (m : WireMsg) :
    inboxLog [(cid, o, m)] cid = [(o, m)] := by
  simp [inboxLog]

/-- A single log entry for a different client. -/
lemma inboxLog_single_other (c cid : Nat) (o : MsgOrigin) (m : WireMsg)
    (h : c ≠ cid) : inboxLog [(c, o, m)] cid = [] := by
  simp [inboxLog, h]

/-- A fan-out block delivers nothing to a client that is not connected. -/
lemma inboxLog_map_not_mem (clients : List Nat) (cid : Nat) (o : MsgOrigin)
    (m : WireMsg) (h : cid ∉ clients) :
    inboxLog (clients.map (fun c => (c, o, m))) cid = [] := by
  simp only [inboxLog, List.filter_map]
  rw [List.filter_eq_nil_iff.mpr]
  · rfl
  · intro a ha
    simp only [Function.comp]
    intro hc
    exact h (by simpa using (of_decide_eq_true hc ▸ ha))

/-- Every message of a fan-out block carries the block's origin tag, so a
count of any other origin over it is zero. -/
lemma countP_inboxLog_map (clients : List Nat) (cid : Nat) (o : MsgOrigin)
    (m : WireMsg) (p : MsgOrigin × WireMsg → Bool) (hp : p (o, m) = false) :
    (inboxLog (clients.map (fun c => (c, o, m))) cid).countP p = 0 := by
  rw [List.countP_eq_zero]
  intro a ha
  simp only [inboxLog, List.mem_map, List.mem_filter] at ha
  obtain ⟨e, ⟨hemem, -⟩, rfl⟩ := ha
  obtain ⟨c, -, rfl⟩ := hemem
  simp [hp]

/-- Invariant of the greeting protocol: suspended handlers belong to
connected clients, a client gets no message before it connects, and each
connected client's inbox starts with its single info greeting and holds
its single greeting stats message exactly once its handler has resumed. -/
def GoodState (s : LoopState) : Prop :=
  s.pending.Nodup ∧
  (∀ c ∈ s.pending, c ∈ s.clients) ∧
  ∀ cid : Nat,
    (cid ∉ s.clients → inbox s cid = []) ∧
    (cid ∈ s.clients →
      infoCount (inbox s cid) = 1 ∧
      (inbox s cid).head? = some (MsgOrigin.greetInfo, WireMsg.info "Connected") ∧
      greetStatsCount (inbox s cid) = (if cid ∈ s.pending then 0 else 1))

/-- The `connect` step preserves the invariant when the client is new. -/
lemma loopStep_connect_good (s : LoopState) (cid0 : Nat) (hs : GoodState s)
    (hnew : cid0 ∉ s.clients) :
    GoodState (loopStep s (LoopEv.connect cid0)) := by
  obtain ⟨hnd, hsub, hinv⟩ := hs
  have hnp : cid0 ∉ s.pending := fun h => hnew (hsub _ h)
  refine ⟨?_, ?_, ?_⟩
  · simp only [loopStep]
    rw [List.nodup_append]
    refine ⟨hnd, List.nodup_singleton _, fun a ha hb => ?_⟩
    simp only [List.mem_singleton] at hb
    subst hb
    exact hnp ha
  · intro c hc
    simp only [loopStep, List.mem_append, List.mem_singleton] at hc ⊢
    rcases hc with h | h
    · exact Or.inl (hsub c h)
    · exact Or.inr h
  · intro c
    have hbox : inbox (loopStep s (LoopEv.connect cid0)) c =
        inbox s c ++ inboxLog [(cid0, MsgOrigin.greetInfo, WireMsg.info "Connected")] c := by
      simp [loopStep, inbox, inboxLog_append]
    constructor
    · intro hc
      simp only [loopStep, List.mem_append, List.mem_singleton, not_or] at hc
      obtain ⟨hc1, hc2⟩ := hc
      rw [hbox, (hinv c).1 hc1, inboxLog_single_other cid0 c _ _ (Ne.symm hc2)]
      rfl
    · intro hc
      simp only [loopStep, List.mem_append, List.mem_singleton] at hc
      by_cases hceq : c = cid0
      · subst hceq
        have hold : inbox s c = [] := (hinv c).1 hnew
        rw [hbox, hold, inboxLog_single_self]
        refine ⟨rfl, rfl, ?_⟩
        have : c ∈ (loopStep s (LoopEv.connect c)).pending := by
          simp [loopStep]
        rw [if_pos this]
        rfl
      · have hc1 : c ∈ s.clients := by
          rcases hc with h | h
          · exact h
          · exact absurd h hceq
        obtain ⟨hicnt, hhead, hgcnt⟩ := (hinv c).2 hc1
        rw [hbox, inboxLog_single_other cid0 c _ _ (Ne.symm hceq)]
        have hpend : (c ∈ (loopStep s (LoopEv.connect cid0)).pending) ↔
            c ∈ s.pending := by
          simp only [loopStep, List.mem_append, List.mem_singleton]
          exact ⟨fun h => h.resolve_right hceq, Or.inl⟩
        simp only [List.append_nil]
        refine ⟨hicnt, hhead, ?_⟩
        rw [hgcnt]
        by_cases hp : c ∈ s.pending
        · rw [if_pos hp, if_pos (hpend.mpr hp)]
        · rw [if_neg hp, if_neg (fun h => hp (hpend.mp h))]

/-- The `mutate` step preserves the invariant: the broadcast appends only
mutation-tagged messages, and only to already-connected clients. -/
lemma loopStep_mutate_good (s : LoopState) (hs : GoodState s) :
    GoodState (loopStep s LoopEv.mutate) := by
  obtain ⟨hnd, hsub, hinv⟩ := hs
  refine ⟨hnd, hsub, ?_⟩
  intro c
  have hbox : inbox (loopStep s LoopEv.mutate) c =
      inbox s c ++ inboxLog (s.clients.map (fun c2 =>
        (c2, MsgOrigin.mutationStats,
          WireMsg.stats (computeStats (postProjects s.repo
            { name := none, title := some "p", description := none }).state)))) c := by
    simp [loopStep, inbox, inboxLog_append]
  constructor
  · intro hc
    rw [hbox, (hinv c).1 (by simpa [loopStep] using hc),
      inboxLog_map_not_mem _ _ _ _ (by simpa [loopStep] using hc)]
    rfl
  · intro hc
    have hc1 : c ∈ s.clients := by simpa [loopStep] using hc
    obtain ⟨hicnt, hhead, hgcnt⟩ := (hinv c).2 hc1
    rw [hbox]
    refine ⟨?_, ?_, ?_⟩
    · simp only [infoCount, List.countP_append] at hicnt ⊢
      rw [hicnt, countP_inboxLog_map _ _ _ _ _ rfl]
    · rw [List.head?_append, hhead]
      rfl
    · simp only [greetStatsCount, List.countP_append] at hgcnt ⊢
      rw [hgcnt, countP_inboxLog_map _ _ _ _ _ rfl]
      simp only [loopStep]
      omega

/-- The `resume` step preserves the invariant: the resumed handler sends
its single greeting stats message and leaves the suspended set. -/
lemma loopStep_resume_good (s : LoopState) (cid0 : Nat) (hs : GoodState s) :
    GoodState (loopStep s (LoopEv.resume cid0)) := by
  obtain ⟨hnd, hsub, hinv⟩ := hs
  by_cases hp0 : cid0 ∈ s.pending
  · have hpend : (loopStep s (LoopEv.resume cid0)).pending =
        s.pending.erase cid0 := by
      simp [loopStep, hp0]
    have hclients : (loopStep s (LoopEv.resume cid0)).clients = s.clients := by
      simp [loopStep, hp0]
    have hbox : ∀ c, inbox (loopStep s (LoopEv.resume cid0)) c =
        inbox s c ++ inboxLog [(cid0, MsgOrigin.greetStats,
          WireMsg.stats (computeStats s.repo))] c := by
      intro c
      simp [loopStep, hp0, inbox, inboxLog_append]
    refine ⟨?_, ?_, ?_⟩
    · rw [hpend]
      exact hnd.erase cid0
    · intro c hc
      rw [hpend] at hc
      rw [hclients]
      exact hsub c (List.erase_subset _ _ hc)
    · intro c
      constructor
      · intro hc
        rw [hclients] at hc
        have hcne : c ≠ cid0 := by
          rintro rfl
          exact hc (hsub _ hp0)
        rw [hbox, (hinv c).1 hc, inboxLog_single_other _ _ _ _ (Ne.symm hcne)]
        rfl
      · intro hc
        rw [hclients] at hc
        obtain ⟨hicnt, hhead, hgcnt⟩ := (hinv c).2 hc
        rw [hpend, hbox]
        by_cases hceq : c = cid0
        · subst hceq
          rw [inboxLog_single_self]
          refine ⟨?_, ?_, ?_⟩
          · simp only [infoCount, List.countP_append] at hicnt ⊢
            rw [hicnt]
            rfl
          · rw [List.head?_append, hhead]
            rfl
          · have hnotp : c ∉ s.pending.erase c := hnd.not_mem_erase
            rw [if_neg hnotp]
            rw [if_pos hp0] at hgcnt
            simp only [greetStatsCount, List.countP_append] at hgcnt ⊢
            rw [hgcnt]
            rfl
        · rw [inboxLog_single_other _ _ _ _ (Ne.symm hceq), List.append_nil]
          refine ⟨hicnt, hhead, ?_⟩
          rw [hgcnt]
          have hmem : c ∈ s.pending.erase cid0 ↔ c ∈ s.pending :=
            List.mem_erase_of_ne hceq
          by_cases hcp : c ∈ s.pending
          · rw [if_pos hcp, if_pos (hmem.mpr hcp)]
          · rw [if_neg hcp, if_neg (fun h => hcp (hmem.mp h))]
  · have hstep : loopStep s (LoopEv.resume cid0) = s := by
      simp [loopStep, hp0]
    rw [hstep]
    exact ⟨hnd, hsub, hinv⟩

/-- The set of connected clients only grows along a run. -/
lemma clients_subset_runLoop (es : List LoopEv) (s : LoopState) :
    s.clients ⊆ (runLoop s es).clients := by
  induction es generalizing s with
  | nil => exact fun a h => h
  | cons e es ih =>
    refine fun a ha => ih (loopStep s e) ?_
    cases e with
    | connect c0 => simp only [loopStep, List.mem_append]; exact Or.inl ha
    | mutate => exact ha
    | resume c0 =>
      simp only [loopStep]
      split
      · exact ha
      · exact ha

/-- A client whose `connect` event is in the schedule is connected at the
end of the run. -/
lemma mem_clients_of_connect (es : List LoopEv) (s : LoopState) (cid : Nat)
    (h : LoopEv.connect cid ∈ es) : cid ∈ (runLoop s es).clients := by
  induction es generalizing s with
  | nil => simp at h
  | cons e es ih =>
    rcases List.mem_cons.mp h with he | he
    · subst he
      refine clients_subset_runLoop es _ ?_
      simp [loopStep]
    · exact ih (loopStep s e) he

/-- Running a schedule whose `connect` events are fresh and pairwise
distinct preserves the invariant. -/
lemma runLoop_good (es : List LoopEv) (s : LoopState) (hs : GoodState s)
    (hfresh : ∀ c, LoopEv.connect c ∈ es → c ∉ s.clients)
    (hnd : (connectIds es).Nodup) :
    GoodState (runLoop s es) := by
  induction es generalizing s with
  | nil => exact hs
  | cons e es ih =>
    cases e with
    | connect c0 =>
      have hc0 : c0 ∉ s.clients := hfresh c0 (List.mem_cons_self _ _)
      have hids : connectIds (LoopEv.connect c0 :: es) = c0 :: connectIds es := by
        simp [connectIds, List.filterMap_cons]
      rw [hids, List.nodup_cons] at hnd
      refine ih (loopStep s (LoopEv.connect c0))
        (loopStep_connect_good s c0 hs hc0) ?_ hnd.2
      intro c hc
      have hcs : c ∉ s.clients := hfresh c (List.mem_cons_of_mem _ hc)
      have hcid : c ≠ c0 := by
        rintro rfl
        exact hnd.1 (List.mem_filterMap.mpr ⟨LoopEv.connect c, hc, rfl⟩)
      simp only [loopStep, List.mem_append, List.mem_singleton, not_or]
      exact ⟨hcs, hcid⟩
    | mutate =>
      have hids : connectIds (LoopEv.mutate :: es) = connectIds es := by
        simp [connectIds, List.filterMap_cons]
      rw [hids] at hnd
      exact ih (loopStep s LoopEv.mutate) (loopStep_mutate_good s hs)
        (fun c hc => hfresh c (List.mem_cons_of_mem _ hc)) hnd
    | resume c0 =>
      have hids : connectIds (LoopEv.resume c0 :: es) = connectIds es := by
        simp [connectIds, List.filterMap_cons]
      rw [hids] at hnd
      have hcl : (loopStep s (LoopEv.resume c0)).clients = s.clients := by
        simp only [loopStep]
        split <;> rfl
      refine ih (loopStep s (LoopEv.resume c0)) (loopStep_resume_good s c0 hs) ?_ hnd
      intro c hc
      rw [hcl]
      exact hfresh c (List.mem_cons_of_mem _ hc)

/-- The initial event-loop state satisfies the invariant. -/
lemma loopInit_good : GoodState loopInit := by
  refine ⟨List.nodup_nil, by simp [loopInit], ?_⟩
  intro cid
  exact ⟨fun _ => rfl, by simp [loopInit]⟩

/-- Claim C5 (amended): under any interleaving of connections, mutations
and handler resumptions (each client connecting once), a newly registered
connection receives exactly one `"info"` message, which is the very first
message delivered to it — no broadcast precedes it — and exactly one
greeting `"stats"` message once its handler has resumed (none while it is
still suspended on `await computeStats()`). Because of that await point,
a broadcast of a concurrent mutation may be delivered between the two
greeting messages. -/
theorem greeting_protocol (sched : List LoopEv) (cid : Nat)
    (hnd : (connectIds sched).Nodup)
    (hmem : LoopEv.connect cid ∈ sched) :
    infoCount (inbox (runLoop loopInit sched) cid) = 1 ∧
    (inbox (runLoop loopInit sched) cid).head? =
      some (MsgOrigin.greetInfo, WireMsg.info "Connected") ∧
    greetStatsCount (inbox (runLoop loopInit sched) cid) =
      (if cid ∈ (runLoop loopInit sched).pending then 0 else 1) := by
  have hgood : GoodState (runLoop loopInit sched) :=
    runLoop_good sched loopInit loopInit_good (by simp [loopInit]) hnd
  exact hgood.2.2 cid |>.2 (mem_clients_of_connect sched loopInit cid hmem)

/-- Claim C5 witness: a client connects and its handler resumes with no
interleaved mutation — it receives exactly the info greeting first and
one greeting stats, and its handler is no longer suspended. -/
theorem greeting_protocol_witness :
    infoCount (inbox (runLoop loopInit [LoopEv.connect 3, LoopEv.resume 3]) 3) = 1 ∧
    (inbox (runLoop loopInit [LoopEv.connect 3, LoopEv.resume 3]) 3).head? =
      some (MsgOrigin.greetInfo, WireMsg.info "Connected") ∧
    greetStatsCount (inbox (runLoop loopInit
      [LoopEv.connect 3, LoopEv.resume 3]) 3) =
      (if 3 ∈ (runLoop loopInit [LoopEv.connect 3, LoopEv.resume 3]).pending
        then 0 else 1) :=
  greeting_protocol [LoopEv.connect 3, LoopEv.resume 3] 3 (by decide) (by decide)

/-- Claim C6 counterexample: the register route signs only the subject
id, so a token issued for the identity (1, "Alice", "a@b.c") and verified
well before its expiry yields claims that lack the display name and
email — not an identity equal to the one the token was issued for. -/
theorem register_token_drops_identity_cex :
    jwtVerify 42 (registerToken 42
      { id := 1, name := "Alice", email := "a@b.c" } 0) 100 =
      some { id := 1, name := none, email := none } ∧
    jwtVerify 42 (registerToken 42
      { id := 1, name := "Alice", email := "a@b.c" } 0) 100 ≠
      some (identityClaims { id := 1, name := "Alice", email := "a@b.c" }) := by
  decide

/-- Claim C6 (amended): a register-route token carries only the subject
id. Verified before its 7-day expiry it yields exactly those claims —
the subject id of the identity it was issued for, with no name or
email; verified at or after expiry it yields no identity; and a token
whose payload was tampered with (claims changed under the original
signature) yields no identity at any time. -/
theorem registerToken_roundtrip (secret : Nat) (user : Identity)
    (now t : Nat) :
    (t < sevenDays →
      jwtVerify secret (registerToken secret user now) (now + t) =
        some { id := user.id, name := none, email := none }) ∧
    (sevenDays ≤ t →
      jwtVerify secret (registerToken secret user now) (now + t) = none) ∧
    (∀ claims2, claims2 ≠ ({ id := user.id, name := none, email := none } :
        SignedClaims) →
      ∀ now2, jwtVerify secret
        { claims := claims2
          iat := now
          exp := now + sevenDays
          sig := (registerToken secret user now).sig } now2 = none) := by
  refine ⟨fun h => ?_, fun h => ?_, fun claims2 hne now2 => ?_⟩
  · simp only [jwtVerify, registerToken, jwtSign]
    rw [if_pos ⟨by simp, by omega⟩]
  · simp only [jwtVerify, registerToken, jwtSign]
    rw [if_neg]
    rintro ⟨-, hlt⟩
    omega
  · simp only [jwtVerify, registerToken, jwtSign]
    rw [if_neg]
    rintro ⟨hsig, -⟩
    exact hne (congrArg (fun q => q.2.1) hsig).symm

/-- Claim C6 witness: a concrete register-route token verifies to the
bare subject id before expiry, verifies to nothing at expiry, and a
tampered copy verifies to nothing. -/
theorem registerToken_roundtrip_witness :
    jwtVerify 7 (registerToken 7 { id := 2, name := "Bo", email := "b@c.d" } 5)
      (5 + 10) = some { id := 2, name := none, email := none } ∧
    jwtVerify 7 (registerToken 7 { id := 2, name := "Bo", email := "b@c.d" } 5)
      (5 + sevenDays) = none ∧
    jwtVerify 7
      { claims := { id := 3, name := none, email := none }
        iat := 5
        exp := 5 + sevenDays
        sig := (registerToken 7 { id := 2, name := "Bo", email := "b@c.d" } 5).sig }
      (5 + 10) = none :=
  ⟨(registerToken_roundtrip 7 { id := 2, name := "Bo", email := "b@c.d" } 5 10).1
      (by decide),
   (registerToken_roundtrip 7 { id := 2, name := "Bo", email := "b@c.d" } 5
      sevenDays).2.1 (le_refl sevenDays),
   (registerToken_roundtrip 7 { id := 2, name := "Bo", email := "b@c.d" } 5 10).2.2
      { id := 3, name := none, email := none } (by decide) (5 + 10)⟩

end WM
